import Mathlib

/-!
Verification of the M-ACT backend and routing proxy.

The definitions below are a shallow embedding of the Python sources:
`backend/security.py` (input validators), `backend/app.py` (the Flask
room API), `proxy/app.py` (the HTTP mirror and WebSocket notification
fan-out) and `proxy/frp_manager.py` (the frps process manager).
Strings are Lean `String`s, Python dicts (`rooms`, OrderedDict
participants, the proxy caches) are association lists in insertion
order, and fallible Python code is modelled with `Except`/`Option`.
-/

namespace MACT

instance {ε α : Type} [DecidableEq ε] [DecidableEq α] : DecidableEq (Except ε α) :=
  fun x y =>
    match x, y with
    | .ok a, .ok b =>
      if h : a = b then isTrue (by rw [h]) else isFalse (fun hh => h (Except.ok.inj hh))
    | .error a, .error b =>
      if h : a = b then isTrue (by rw [h]) else isFalse (fun hh => h (Except.error.inj hh))
    | .ok _, .error _ => isFalse (fun hh => Except.noConfusion hh)
    | .error _, .ok _ => isFalse (fun hh => Except.noConfusion hh)

/-! ## Python string primitives -/

/-- Python truthiness of an optional string value: `None` and `""` are falsy. -/
def pyFalsy : Option String → Bool
  | none => true
  | some s => s = ""

/-- Python `str.lower()` (ASCII case folding). -/
def pyLower (s : String) : String := (s.toList.map Char.toLower).asString

/-- Whitespace stripped by Python `str.strip()` (ASCII part). -/
def isPyWS (c : Char) : Bool :=
  c = ' ' || c = '\t' || c = '\n' || c = '\r' || c = '\x0b' || c = '\x0c'

/-- Python `str.strip()` on a character list. -/
def pyStripList (cs : List Char) : List Char :=
  ((cs.dropWhile isPyWS).reverse.dropWhile isPyWS).reverse

/-- Python `str.strip()`. -/
def pyStrip (s : String) : String := (pyStripList s.toList).asString

/-- Python `str.rstrip('/')`. -/
def pyRstripSlash (s : String) : String :=
  ((s.toList.reverse.dropWhile (· = '/')).reverse).asString

/-- The characters a `$`-terminated Python regex really constrains: all of
them, except that one trailing newline is dropped (`$` may match before
it). -/
def pyCore (cs : List Char) : List Char :=
  if cs.getLast? = some '\n' then cs.dropLast else cs

/-- Python `re.match(r'^[C]+$', s)` for a character class `C`: the whole
string consists of class characters; `$` also matches just before a single
trailing newline. -/
def pyFullMatchPlus (cls : Char → Bool) (s : String) : Bool :=
  !(pyCore s.toList).isEmpty && (pyCore s.toList).all cls

/-- First occurrence split, Python `s.split(sep, 1)` for a separator that
does occur: returns the text before the first occurrence of `sep` and the
text after it (later occurrences stay in the second part). `none` when
`sep` does not occur, which also models Python's `sep in s` test. -/
def splitOnce (sep : List Char) : List Char → Option (List Char × List Char)
  | [] => none
  | c :: rest =>
    if sep.isPrefixOf (c :: rest) then some ([], (c :: rest).drop sep.length)
    else
      match splitOnce sep rest with
      | some (pre, post) => some (c :: pre, post)
      | none => none

/-- Python `sub in s` for strings. -/
def containsSub (hay sub : List Char) : Bool := (splitOnce sub hay).isSome

/-! ## backend/security.py : character classes and validators -/

/-- `[a-z0-9-]`, the room-code character class. -/
def isRoomCodeChar (c : Char) : Bool := c.isLower || c.isDigit || c = '-'

/-- `[a-zA-Z0-9_-]`, the developer-id character class. -/
def isDevIdChar (c : Char) : Bool := c.isAlpha || c.isDigit || c = '_' || c = '-'

/-- `[a-zA-Z0-9/_-]`, the branch-name character class. -/
def isBranchChar (c : Char) : Bool :=
  c.isAlpha || c.isDigit || c = '/' || c = '_' || c = '-'

/-- `[a-f0-9]`, the commit-hash character class. -/
def isHexLowerChar (c : Char) : Bool := ('a' ≤ c && c ≤ 'f') || c.isDigit

def MAX_ROOM_CODE_LENGTH : Nat := 50
def MAX_DEVELOPER_ID_LENGTH : Nat := 30
def MAX_COMMIT_MESSAGE_LENGTH : Nat := 200
def MAX_BRANCH_LENGTH : Nat := 50

/-- Python `s.startswith('-')`. -/
def headIsHyphen (s : String) : Bool := s.toList.head? = some '-'

/-- Python `s.endswith('-')`. -/
def lastIsHyphen (s : String) : Bool := s.toList.getLast? = some '-'

/-- `validate_room_code` from `backend/security.py`.  A `ValidationError`
is an `Except.error` carrying the exception message. -/
def validate_room_code (room_code : String) : Except String String :=
  if room_code = "" then
    .error "room_code is required and must be a string"
  else if room_code.length > MAX_ROOM_CODE_LENGTH then
    .error "room_code too long (max 50 chars)"
  else if !pyFullMatchPlus isRoomCodeChar room_code then
    .error "room_code must contain only lowercase letters, numbers, and hyphens"
  else if headIsHyphen room_code || lastIsHyphen room_code then
    .error "room_code cannot start or end with hyphen"
  else
    .ok (pyStrip room_code)

/-- `validate_developer_id` from `backend/security.py`. -/
def validate_developer_id (developer_id : String) : Except String String :=
  if developer_id = "" then
    .error "developer_id is required and must be a string"
  else if developer_id.length > MAX_DEVELOPER_ID_LENGTH then
    .error "developer_id too long (max 30 chars)"
  else if !pyFullMatchPlus isDevIdChar developer_id then
    .error "developer_id must contain only letters, numbers, underscores, and hyphens"
  else
    .ok (pyStrip developer_id)

/-- `validate_commit_hash` from `backend/security.py`.
`^[a-f0-9]{7,40}$` with Python's `$`-before-trailing-newline semantics. -/
def commitHashMatches (s : String) : Bool :=
  let cs := s.toList
  let core := if cs.getLast? = some '\n' then cs.dropLast else cs
  7 ≤ core.length && core.length ≤ 40 && core.all isHexLowerChar

def validate_commit_hash (commit_hash : String) : Except String String :=
  if commit_hash = "" then
    .error "commit_hash is required and must be a string"
  else if !commitHashMatches commit_hash then
    .error "commit_hash must be a valid Git SHA (7-40 hex chars)"
  else
    .ok (pyLower (pyStrip commit_hash))

/-- `validate_branch` from `backend/security.py`. -/
def validate_branch (branch : String) : Except String String :=
  if branch = "" then
    .error "branch is required and must be a string"
  else if branch.length > MAX_BRANCH_LENGTH then
    .error "branch too long (max 50 chars)"
  else if !pyFullMatchPlus isBranchChar branch then
    .error "branch contains invalid characters"
  else
    .ok (pyStrip branch)

/-- One pass of `re.sub(r'<[^>]+>', '', s)`: at a `<`, if some later `>`
exists with at least one character in between, the match `<...>` is removed
and scanning resumes after it; otherwise the `<` is kept.  The fuel is the
list length, which bounds the number of scanning steps. -/
def stripTagsAux : Nat → List Char → List Char
  | 0, cs => cs
  | _ + 1, [] => []
  | fuel + 1, c :: rest =>
    if c = '<' then
      let inner := rest.takeWhile (· ≠ '>')
      if inner.isEmpty then c :: stripTagsAux fuel rest
      else if inner.length < rest.length then
        stripTagsAux fuel (rest.drop (inner.length + 1))
      else c :: stripTagsAux fuel rest
    else c :: stripTagsAux fuel rest

/-- `re.sub(r'<[^>]+>', '', s)`. -/
def stripTags (cs : List Char) : List Char := stripTagsAux cs.length cs

/-- The sanitisation pipeline of `validate_commit_message`: strip HTML
tags, replace `\n` by a space, remove `\r`, then trim. -/
def sanitizeCommitMessage (m : String) : String :=
  let cs := stripTags m.toList
  let cs := cs.map (fun c => if c = '\n' then ' ' else c)
  let cs := cs.filter (· ≠ '\r')
  (pyStripList cs).asString

/-- `validate_commit_message` from `backend/security.py`: the length limit
is checked on the already-sanitised message. -/
def validate_commit_message (message : String) : Except String String :=
  if message = "" then
    .error "commit_message is required and must be a string"
  else
    let m := sanitizeCommitMessage message
    if m.length > MAX_COMMIT_MESSAGE_LENGTH then
      .error "commit_message too long (max 200 chars)"
    else
      .ok m

/-- `re.sub(r'-+', '-', s)`: collapse every run of hyphens to a single
hyphen.  The flag records whether the previous character was a hyphen. -/
def collapseHyphensAux : Bool → List Char → List Char
  | _, [] => []
  | prevH, c :: rest =>
    if c = '-' then
      if prevH then collapseHyphensAux true rest
      else '-' :: collapseHyphensAux true rest
    else c :: collapseHyphensAux false rest

def collapseHyphens (cs : List Char) : List Char := collapseHyphensAux false cs

/-- Python `s.strip('-')`. -/
def stripHyphens (cs : List Char) : List Char :=
  ((cs.dropWhile (· = '-')).reverse.dropWhile (· = '-')).reverse

/-- The room-code derivation inside `validate_project_name`: lowercase,
spaces and underscores to hyphens, drop characters outside `[a-z0-9-]`,
collapse hyphen runs, strip leading/trailing hyphens. -/
def projectNameToRoomCode (p : String) : String :=
  let cs := p.toList.map Char.toLower
  let cs := cs.map (fun c => if c = ' ' then '-' else c)
  let cs := cs.map (fun c => if c = '_' then '-' else c)
  let cs := cs.filter isRoomCodeChar
  let cs := collapseHyphens cs
  let cs := stripHyphens cs
  cs.asString

/-- `validate_project_name` from `backend/security.py`. -/
def validate_project_name (project_name : String) : Except String String :=
  if project_name = "" then
    .error "project_name is required and must be a string"
  else
    let room_code := projectNameToRoomCode project_name
    if room_code = "" then
      .error "project_name results in empty room_code"
    else if room_code.length > MAX_ROOM_CODE_LENGTH then
      .error "project_name too long (max 50 chars)"
    else
      .ok room_code

/-! ## backend/app.py : data model

`rooms` maps a room code to participants and commits.  A participant value
has one of the two shapes the code stores: the legacy bare subdomain-URL
string written by `create_room`, or the structured
`{subdomain_url, connected}` record written by `join_room`/`leave_room`. -/

inductive PInfo where
  | legacy (url : String)
  | structured (subdomain_url : String) (connected : Bool)
deriving DecidableEq, Repr

/-- `info.get("connected", True) if isinstance(info, dict) else True`:
a legacy bare string always counts as connected. -/
def PInfo.isConnected : PInfo → Bool
  | .legacy _ => true
  | .structured _ c => c

/-- The stored subdomain URL (`info.get("subdomain_url")` for the
structured shape, the string itself for the legacy shape). -/
def PInfo.subdomainUrl : PInfo → String
  | .legacy u => u
  | .structured u _ => u

structure Commit where
  commit_hash : String
  branch : String
  commit_message : String
  developer_id : String
  timestamp : Nat
deriving DecidableEq, Repr

/-- The room's `participants` OrderedDict, in insertion order. -/
abbrev Participants := List (String × PInfo)

structure Room where
  participants : Participants
  commits : List Commit
deriving DecidableEq, Repr

/-- The global `rooms` dict. -/
abbrev Rooms := List (String × Room)

/-- `d[k] = v` on a Python dict: overwrite in place if the key exists,
otherwise append (insertion order). -/
def dictSet {α : Type} (l : List (String × α)) (k : String) (v : α) :
    List (String × α) :=
  if l.any (fun p => p.1 = k) then
    l.map (fun p => if p.1 = k then (k, v) else p)
  else l ++ [(k, v)]

/-- `k in d` on a Python dict. -/
def dictMem {α : Type} (l : List (String × α)) (k : String) : Bool :=
  l.any (fun p => p.1 = k)

/-- `del d[k]` on a Python dict. -/
def dictDelete {α : Type} (l : List (String × α)) (k : String) :
    List (String × α) :=
  l.filter (fun p => p.1 ≠ k)

/-! ## Active-developer resolution (`get_active_url` / `get_room_status`) -/

/-- The commit-history scan: walk `reversed(commits)` and pick the first
committer that is a currently-connected participant. -/
def findCommitActive (commits : List Commit) (participants : Participants) :
    Option String :=
  (commits.reverse.find? fun c =>
    match participants.lookup c.developer_id with
    | some info => info.isConnected
    | none => false).map Commit.developer_id

/-- The fallback scan: first connected participant in insertion order. -/
def findFirstConnected (participants : Participants) : Option String :=
  (participants.find? fun p => p.2.isConnected).map Prod.fst

/-- `if commits:` guard plus the commit-history scan. -/
def activeStage1 (commits : List Commit) (participants : Participants) :
    Option String :=
  if commits.isEmpty then none else findCommitActive commits participants

/-- `if not active_developer and participants:` fallback to the first
connected participant; the scan leaves the value unchanged when it finds
nobody. -/
def activeStage2 (participants : Participants) (a : Option String) :
    Option String :=
  if pyFalsy a && !participants.isEmpty then
    match findFirstConnected participants with
    | some d => some d
    | none => a
  else a

/-- `if not active_developer and participants:` last resort, the first
participant regardless of connection state. -/
def activeStage3 (participants : Participants) (a : Option String) :
    Option String :=
  if pyFalsy a && !participants.isEmpty then participants.head?.map Prod.fst
  else a

/-- Active-developer resolution as coded in `get_active_url`
(backend/app.py lines 244-270). -/
def activeDeveloperGetActiveUrl (commits : List Commit)
    (participants : Participants) : Option String :=
  activeStage3 participants (activeStage2 participants
    (activeStage1 commits participants))

/-- Active-developer resolution as coded in `get_room_status`
(backend/app.py lines 334-359); the code is a verbatim copy of the
`get_active_url` fallback chain. -/
def activeDeveloperRoomStatus (commits : List Commit)
    (participants : Participants) : Option String :=
  activeStage3 participants (activeStage2 participants
    (activeStage1 commits participants))

/-- The resolution rule as the specification words it: scan the commit
list newest to oldest for a commit whose `developer_id` names a currently
connected participant; otherwise the first connected participant in
insertion order; otherwise the very first participant; no participants
means no active developer. -/
def specActiveDeveloper (commits : List Commit) (participants : Participants) :
    Option String :=
  if participants.isEmpty then none
  else
    match commits.reverse.find? (fun c =>
        match participants.lookup c.developer_id with
        | some info => info.isConnected
        | none => false) with
    | some c => some c.developer_id
    | none =>
      match participants.find? (fun p => p.2.isConnected) with
      | some p => some p.1
      | none => participants.head?.map Prod.fst

/-! ## URL handling (`get_active_url` rewrite, proxy `mirror` split) -/

/-- Characters allowed in a URL scheme by `urllib.parse`. -/
def isSchemeChar (c : Char) : Bool :=
  c.isAlpha || c.isDigit || c = '+' || c = '-' || c = '.'

/-- Drop a leading `scheme:` when present, as `urllib.parse` does. -/
def dropScheme (cs : List Char) : List Char :=
  let pre := cs.takeWhile (· ≠ ':')
  if pre.length < cs.length && !pre.isEmpty &&
      (pre.head?.getD ' ').isAlpha && pre.all isSchemeChar then
    cs.drop (pre.length + 1)
  else cs

/-- `urlparse(url).netloc`: when the remainder after the scheme starts
with `//`, the network authority runs up to the next `/`, `?` or `#`. -/
def urlparse_netloc (url : String) : String :=
  let rest := dropScheme url.toList
  if rest.take 2 = ['/', '/'] then
    ((rest.drop 2).takeWhile (fun c => c ≠ '/' && c ≠ '?' && c ≠ '#')).asString
  else ""

/-- The proxy `mirror` parse of the backend's special active-url form
(proxy/app.py lines 675-679): when `"|Host:"` occurs, split at its first
occurrence into the base address and the Host-header override. -/
def mirrorParseActiveUrl (active_url : String) : String × Option String :=
  match splitOnce "|Host:".toList active_url.toList with
  | some (base, host) => (base.asString, some host.asString)
  | none => (active_url, none)

/-! ## `validate_subdomain_url` -/

/-- `[a-z0-9.-]` with `re.IGNORECASE`. -/
def isUrlHostChar (c : Char) : Bool := c.isAlpha || c.isDigit || c = '.' || c = '-'

/-- One host alternative of `URL_PATTERN`:
`[a-z0-9.-]+\.[a-z]{2,}` (a dot with something before it and an
all-letter TLD of length at least 2 after the last dot), or the literals
`localhost`, `127.0.0.1`, `0.0.0.0`.  The run is already known to consist
of host characters. -/
def hostRunMatches (run : List Char) : Bool :=
  (let tld := (run.reverse.takeWhile (· ≠ '.')).reverse
   2 ≤ tld.length && tld.all Char.isAlpha && tld.length + 2 ≤ run.length)
  || run.map Char.toLower = "localhost".toList
  || run = "127.0.0.1".toList
  || run = "0.0.0.0".toList

/-- `URL_PATTERN` of backend/security.py:
`^https?://(host)(:[0-9]+)?(/.*)?$` with `re.IGNORECASE`, where `.` does
not match a newline and `$` also matches before one trailing newline. -/
def urlPatternMatches (s : String) : Bool :=
  let cs := s.toList
  let core := if cs.getLast? = some '\n' then cs.dropLast else cs
  let low := core.map Char.toLower
  let afterScheme : Option (List Char) :=
    if low.take 7 = "http://".toList then some (core.drop 7)
    else if low.take 8 = "https://".toList then some (core.drop 8)
    else none
  match afterScheme with
  | none => false
  | some rest =>
    let run := rest.takeWhile isUrlHostChar
    let tail := rest.drop run.length
    hostRunMatches run &&
      (match tail with
       | [] => true
       | ':' :: t =>
         let ds := t.takeWhile Char.isDigit
         !ds.isEmpty &&
           (match t.drop ds.length with
            | [] => true
            | '/' :: _ => (t.drop ds.length).all (· ≠ '\n')
            | _ => false)
       | '/' :: _ => tail.all (· ≠ '\n')
       | _ => false)

/-- `validate_subdomain_url` from `backend/security.py`. -/
def validate_subdomain_url (url : String) : Except String String :=
  if url = "" then
    .error "subdomain_url is required and must be a string"
  else if !urlPatternMatches url then
    .error "subdomain_url must be a valid HTTP/HTTPS URL"
  else if !(containsSub url.toList "dev-".toList ||
            containsSub url.toList "localhost".toList ||
            containsSub url.toList "127.0.0.1".toList) then
    .error "subdomain_url should be a dev-* subdomain or localhost"
  else
    .ok (pyRstripSlash (pyStrip url))

/-! ## backend/app.py : HTTP responses and endpoints

Responses are a status code paired with the JSON body `jsonify` builds.
An error body is `err error message` with `message = none` when the dict
passed to `jsonify` has no `"message"` key. -/

structure StatusEntry where
  developer_id : String
  subdomain_url : String
  connected : Bool
deriving DecidableEq, Repr

structure AdminRoomEntry where
  room_code : String
  participants : List String
  commit_count : Nat
  active_developer : Option String
deriving DecidableEq, Repr

inductive ApiBody where
  | err (error : String) (message : Option String)
  | created (room_code : String) (public_url : String)
  | joinOk (status : String) (public_url : String)
  | okStatus (status : String)
  | activeUrl (active_url : Option String)
  | roomStatus (room_code : String) (active_developer : Option String)
      (latest_commit : Option String) (participants : List StatusEntry)
  | commitsBody (room_code : String) (commits : List Commit)
  | roomsList (rooms : List AdminRoomEntry)
  | deleted (status : String) (message : String)
  | health (status : String) (rooms_count : Nat)
deriving DecidableEq, Repr

abbrev Resp := Nat × ApiBody

/-- `data[k]` for a JSON object modelled as a string-valued dict; only
used on keys whose presence the decorator has already checked. -/
def getField (data : List (String × String)) (k : String) : String :=
  (data.lookup k).getD ""

/-- The `validate_request_json` decorator of backend/security.py:
content-type, body, and required-field checks, each a 400 with an
`error`/`message` body. -/
def requestJsonCheck (required : List String) (isJson : Bool)
    (data : List (String × String)) : Option Resp :=
  if !isJson then
    some (400, .err "Invalid content type" (some "Request must be application/json"))
  else if data.isEmpty then
    some (400, .err "Invalid JSON" (some "Request body must be valid JSON"))
  else
    let missing := required.filter (fun f => !dictMem data f)
    if !missing.isEmpty then
      some (400, .err "Missing required fields"
        (some ("Required fields: " ++ String.intercalate ", " missing)))
    else none

/-- The `require_admin_auth` decorator of backend/security.py: a Bearer
token from the Authorization header, else the `api_key` query parameter. -/
def adminAuthCheck (authHeader apiKeyParam adminKey : String) : Option Resp :=
  let provided := if authHeader.startsWith "Bearer " then authHeader.drop 7
                  else apiKeyParam
  if provided = "" then
    some (401, .err "Authentication required"
      (some "Provide API key in Authorization header or api_key parameter"))
  else if provided ≠ adminKey then
    some (403, .err "Invalid API key" (some "The provided API key is invalid"))
  else none

/-- `create_room` (backend/app.py lines 33-56), after the JSON decorator:
validates, rejects duplicates with a 409, then stores the creator as a
legacy bare-string participant. -/
def create_room (rooms : Rooms)
    (project_name developer_id subdomain_url : String) : Resp × Rooms :=
  match validate_project_name project_name with
  | .error e => ((400, .err "Validation failed" (some e)), rooms)
  | .ok room_code =>
    match validate_developer_id developer_id with
    | .error e => ((400, .err "Validation failed" (some e)), rooms)
    | .ok dev =>
      match validate_subdomain_url subdomain_url with
      | .error e => ((400, .err "Validation failed" (some e)), rooms)
      | .ok url =>
        if dictMem rooms room_code then
          ((409, .err "Room with this project name already exists" none), rooms)
        else
          ((201, .created room_code ("http://" ++ room_code ++ ".m-act.live")),
           dictSet rooms room_code ⟨[(dev, .legacy url)], []⟩)

/-- `join_room` (backend/app.py lines 58-97): both the rejoin and the
new-participant branch store the structured `{subdomain_url, connected:
true}` record; they differ only in the reported status string. -/
def join_room (rooms : Rooms)
    (room_code developer_id subdomain_url : String) : Resp × Rooms :=
  match validate_room_code room_code with
  | .error e => ((400, .err "Validation failed" (some e)), rooms)
  | .ok rc =>
    match validate_developer_id developer_id with
    | .error e => ((400, .err "Validation failed" (some e)), rooms)
    | .ok dev =>
      match validate_subdomain_url subdomain_url with
      | .error e => ((400, .err "Validation failed" (some e)), rooms)
      | .ok url =>
        match rooms.lookup rc with
        | none => ((404, .err "Room not found" none), rooms)
        | some room =>
          let newRooms := dictSet rooms rc
            { room with
              participants := dictSet room.participants dev (.structured url true) }
          if dictMem room.participants dev then
            ((200, .joinOk "reconnected" ("http://" ++ rc ++ ".m-act.live")),
             newRooms)
          else
            ((200, .joinOk "success" ("http://" ++ rc ++ ".m-act.live")),
             newRooms)

/-- `leave_room` (backend/app.py lines 99-132): marks the participant as
disconnected, converting a legacy entry to the structured shape. -/
def leave_room (rooms : Rooms) (room_code developer_id : String) :
    Resp × Rooms :=
  match validate_room_code room_code with
  | .error e => ((400, .err "Validation failed" (some e)), rooms)
  | .ok rc =>
    match validate_developer_id developer_id with
    | .error e => ((400, .err "Validation failed" (some e)), rooms)
    | .ok dev =>
      match rooms.lookup rc with
      | none => ((404, .err "Room not found" none), rooms)
      | some room =>
        match room.participants.lookup dev with
        | none => ((404, .err "Developer not in room" none), rooms)
        | some info =>
          ((200, .okStatus "success"),
           dictSet rooms rc
             { room with
               participants := dictSet room.participants dev
                 (.structured info.subdomainUrl false) })

/-- `report_commit` (backend/app.py lines 134-178): validates all inputs,
requires the room and membership, then appends the commit.  `now` stands
for `time.time()`. -/
def report_commit (rooms : Rooms)
    (room_code developer_id commit_hash branch commit_message : String)
    (now : Nat) : Resp × Rooms :=
  match validate_room_code room_code with
  | .error e => ((400, .err "Validation failed" (some e)), rooms)
  | .ok rc =>
    match validate_developer_id developer_id with
    | .error e => ((400, .err "Validation failed" (some e)), rooms)
    | .ok dev =>
      match validate_commit_hash commit_hash with
      | .error e => ((400, .err "Validation failed" (some e)), rooms)
      | .ok ch =>
        match validate_branch branch with
        | .error e => ((400, .err "Validation failed" (some e)), rooms)
        | .ok br =>
          match validate_commit_message commit_message with
          | .error e => ((400, .err "Validation failed" (some e)), rooms)
          | .ok msg =>
            match rooms.lookup rc with
            | none => ((404, .err "Room not found" none), rooms)
            | some room =>
              if !dictMem room.participants dev then
                ((403, .err "Developer not in room" none), rooms)
              else
                ((200, .okStatus "success"),
                 dictSet rooms rc
                   { room with commits := room.commits ++ [⟨ch, br, msg, dev, now⟩] })

/-- `get_active_url` (backend/app.py lines 222-307).  A missing or empty
`room` query parameter skips validation and yields a null `active_url`;
an invalid one is a 400; otherwise the resolved developer's subdomain URL
is rewritten to `http://127.0.0.1:7101|Host:<netloc>`. -/
def get_active_url (rooms : Rooms) (roomParam : Option String) : Resp :=
  match roomParam with
  | none => (200, .activeUrl none)
  | some r =>
    if r = "" then (200, .activeUrl none)
    else
      match validate_room_code r with
      | .error e => (400, .err "Validation failed" (some e))
      | .ok rc =>
        match rooms.lookup rc with
        | none => (200, .activeUrl none)
        | some room =>
          if room.participants.isEmpty then (200, .activeUrl none)
          else
            let ad := activeDeveloperGetActiveUrl room.commits room.participants
            if pyFalsy ad then (200, .activeUrl none)
            else
              match room.participants.lookup (ad.getD "") with
              | none => (500, .err "Internal Server Error" none)
              | some info =>
                if info.subdomainUrl = "" then (200, .activeUrl none)
                else
                  (200, .activeUrl (some ("http://127.0.0.1:7101|Host:" ++
                    urlparse_netloc info.subdomainUrl)))

/-- The participant serialisation of `get_room_status` (backend/app.py
lines 364-380): a structured record reports its stored fields, a legacy
bare string reports `connected: true`. -/
def statusEntryOf (d : String) (i : PInfo) : StatusEntry :=
  match i with
  | .structured u c => ⟨d, u, c⟩
  | .legacy u => ⟨d, u, true⟩

/-- `get_room_status` (backend/app.py lines 309-387). -/
def get_room_status (rooms : Rooms) (roomParam : Option String) : Resp :=
  match roomParam with
  | none => (400, .err "Missing room parameter" none)
  | some r =>
    if r = "" then (400, .err "Missing room parameter" none)
    else
      match validate_room_code r with
      | .error e => (400, .err "Validation failed" (some e))
      | .ok rc =>
        match rooms.lookup rc with
        | none => (404, .err "Room not found" none)
        | some room =>
          (200, .roomStatus rc
            (activeDeveloperRoomStatus room.commits room.participants)
            (room.commits.getLast?.map Commit.commit_hash)
            (room.participants.map fun p => statusEntryOf p.1 p.2))

/-- `get_room_commits` (backend/app.py lines 389-401). -/
def get_room_commits (rooms : Rooms) (room_code : String) : Resp :=
  match validate_room_code room_code with
  | .error e => (400, .err "Validation failed" (some e))
  | .ok rc =>
    match rooms.lookup rc with
    | none => (404, .err "Room not found" none)
    | some room => (200, .commitsBody rc room.commits)

/-- `list_all_rooms` (backend/app.py lines 403-420), after admin auth. -/
def list_all_rooms (rooms : Rooms)
    (authHeader apiKeyParam adminKey : String) : Resp :=
  match adminAuthCheck authHeader apiKeyParam adminKey with
  | some resp => resp
  | none =>
    (200, .roomsList (rooms.map fun p =>
      ⟨p.1, p.2.participants.map Prod.fst, p.2.commits.length,
       p.2.commits.getLast?.map Commit.developer_id⟩))

/-- `delete_room` (backend/app.py lines 422-441), after admin auth. -/
def delete_room (rooms : Rooms)
    (authHeader apiKeyParam adminKey room_code : String) : Resp × Rooms :=
  match adminAuthCheck authHeader apiKeyParam adminKey with
  | some resp => (resp, rooms)
  | none =>
    match validate_room_code room_code with
    | .error e => ((400, .err "Validation failed" (some e)), rooms)
    | .ok rc =>
      match rooms.lookup rc with
      | none => ((404, .err "Room not found" none), rooms)
      | some _ =>
        ((200, .deleted "success" ("Room '" ++ rc ++ "' deleted successfully")),
         dictDelete rooms rc)

/-- `health_check` (backend/app.py lines 443-445). -/
def health_check (rooms : Rooms) : Resp :=
  (200, .health "healthy" rooms.length)

/-- `create_room` behind its `validate_request_json` decorator. -/
def create_room_endpoint (rooms : Rooms) (isJson : Bool)
    (data : List (String × String)) : Resp × Rooms :=
  match requestJsonCheck ["project_name", "developer_id", "subdomain_url"]
      isJson data with
  | some resp => (resp, rooms)
  | none =>
    create_room rooms (getField data "project_name")
      (getField data "developer_id") (getField data "subdomain_url")

/-- `join_room` behind its `validate_request_json` decorator. -/
def join_room_endpoint (rooms : Rooms) (isJson : Bool)
    (data : List (String × String)) : Resp × Rooms :=
  match requestJsonCheck ["room_code", "developer_id", "subdomain_url"]
      isJson data with
  | some resp => (resp, rooms)
  | none =>
    join_room rooms (getField data "room_code")
      (getField data "developer_id") (getField data "subdomain_url")

/-- `leave_room` behind its `validate_request_json` decorator. -/
def leave_room_endpoint (rooms : Rooms) (isJson : Bool)
    (data : List (String × String)) : Resp × Rooms :=
  match requestJsonCheck ["room_code", "developer_id"] isJson data with
  | some resp => (resp, rooms)
  | none =>
    leave_room rooms (getField data "room_code") (getField data "developer_id")

/-- `report_commit` behind its `validate_request_json` decorator. -/
def report_commit_endpoint (rooms : Rooms) (isJson : Bool)
    (data : List (String × String)) (now : Nat) : Resp × Rooms :=
  match requestJsonCheck
      ["room_code", "developer_id", "commit_hash", "branch", "commit_message"]
      isJson data with
  | some resp => (resp, rooms)
  | none =>
    report_commit rooms (getField data "room_code")
      (getField data "developer_id") (getField data "commit_hash")
      (getField data "branch") (getField data "commit_message") now

/-! ## proxy/app.py : WebSocket notification fan-out

A registered dashboard connection is modelled by an identifier plus
whether `send_json` to it succeeds; `_notification_clients` and
`_active_developer_cache` are the two module-level dicts. -/

structure Conn where
  id : Nat
  sendOk : Bool
deriving DecidableEq, Repr

structure CommitMsg where
  type : String
  room : String
  active_developer : String
deriving DecidableEq, Repr

structure NotifState where
  clients : List (String × List Conn)
  cache : List (String × String)
deriving DecidableEq, Repr

/-- `notify_room_clients` (proxy/app.py lines 863-889).  Returns the new
state and the list of messages actually delivered.  When the room has no
entry in `_notification_clients` the function returns at once, before the
cache update.  Otherwise it updates the cache, attempts a
`{type: "commit", room, active_developer}` send to every registered
connection, and removes each connection whose send failed. -/
def notify_room_clients (st : NotifState)
    (room_code active_developer : String) :
    NotifState × List (Conn × CommitMsg) :=
  match st.clients.lookup room_code with
  | none => (st, [])
  | some conns =>
    let cache' := dictSet st.cache room_code active_developer
    let msg : CommitMsg := ⟨"commit", room_code, active_developer⟩
    let delivered := (conns.filter (fun c => c.sendOk)).map (fun c => (c, msg))
    let disconnected := conns.filter (fun c => !c.sendOk)
    let conns' := disconnected.foldl (fun l ws => l.erase ws) conns
    (⟨dictSet st.clients room_code conns', cache'⟩, delivered)

/-! ## proxy/frp_manager.py : FrpsManager -/

structure FrpsLaunchResult where
  started : Bool
  reason : Option String := none
deriving DecidableEq, Repr

/-- The mutable fields of an `FrpsManager`; a live `subprocess.Popen`
handle is a process id. -/
structure FrpsManagerState where
  binary_path : Option String
  config_path : Option String
  process : Option Nat
deriving DecidableEq, Repr

/-- One `subprocess.Popen(cmd, stdout=..., stderr=..., env=...)` call:
the argument list and whether each output stream is sent to
`subprocess.DEVNULL`. -/
structure PopenCall where
  cmd : List String
  stdout_to_devnull : Bool
  stderr_to_devnull : Bool
deriving DecidableEq, Repr

/-- The operating-system facts `start` consults: `shutil.which`,
`os.path.isfile`, `Popen.poll() is None` per process id, and the outcome
of `subprocess.Popen` (`error` is the `OSError` text, which carries the
raising error's message). -/
structure FrpsEnv where
  whichOk : String → Bool
  isFile : String → Bool
  pollAlive : Nat → Bool
  popen : PopenCall → Except String Nat

/-- `self._process and self._process.poll() is None`. -/
def processAlive (m : FrpsManagerState) (env : FrpsEnv) : Bool :=
  match m.process with
  | some pid => env.pollAlive pid
  | none => false

/-- `FrpsManager.is_configured` (proxy/frp_manager.py lines 50-55). -/
def FrpsManagerState.is_configured (m : FrpsManagerState) (env : FrpsEnv) :
    Bool :=
  match m.binary_path with
  | none => false
  | some bp =>
    if bp = "" then false
    else if !env.whichOk bp && !env.isFile bp then false
    else true

/-- The command list `start` builds: the binary plus `-c <config>` when a
config path is set. -/
def frpsCmd (m : FrpsManagerState) : List String :=
  (m.binary_path.getD "") ::
    (match m.config_path with
     | some cp => if cp = "" then [] else ["-c", cp]
     | none => [])

/-- `FrpsManager.start` (proxy/frp_manager.py lines 57-78).  The third
component records the `subprocess.Popen` calls the invocation makes; the
source passes `stdout=subprocess.DEVNULL, stderr=subprocess.DEVNULL`, so
the recorded call has both discard flags set. -/
def FrpsManagerState.start (m : FrpsManagerState) (env : FrpsEnv) :
    FrpsLaunchResult × FrpsManagerState × List PopenCall :=
  if processAlive m env then
    (⟨true, none⟩, m, [])
  else if !m.is_configured env then
    (⟨false, some "frps binary not configured"⟩, m, [])
  else
    match env.popen ⟨frpsCmd m, true, true⟩ with
    | .ok pid =>
      (⟨true, none⟩, { m with process := some pid }, [⟨frpsCmd m, true, true⟩])
    | .error e => (⟨false, some e⟩, m, [⟨frpsCmd m, true, true⟩])

/-! ## Predicates used by the statements -/

/-- The backend's client-error statuses. -/
def isErrStatus (n : Nat) : Bool :=
  n = 400 || n = 401 || n = 403 || n = 404 || n = 409

/-- Error categories whose bodies carry a `"message"` field: the
`ValidationError` handler and the two security decorators. -/
def hasMsgCategory (e : String) : Bool :=
  e = "Validation failed" || e = "Authentication required" ||
  e = "Invalid API key" || e = "Invalid content type" ||
  e = "Invalid JSON" || e = "Missing required fields"

/-- An error body: a non-empty `"error"` field, and a `"message"` field
whenever the error comes from validation or the security decorators. -/
def ErrShape (b : ApiBody) : Prop :=
  ∃ e m, b = .err e m ∧ e ≠ "" ∧ (hasMsgCategory e = true → m.isSome = true)

/-- A `room` query parameter the `get_active_url` handler accepts without
a validation error: absent, empty (falsy, so validation is skipped), or
valid. -/
def roomParamAccepted : Option String → Prop
  | none => True
  | some r => r = "" ∨ ∃ rc, validate_room_code r = .ok rc

/-! # Theorems -/

/-! ## List and string helper lemmas -/

theorem asString_toList (s : String) : s.toList.asString = s := rfl

theorem toList_eq_nil_iff (s : String) : s.toList = [] ↔ s = "" := by
  rw [String.ext_iff]
  exact Iff.rfl

theorem dropWhile_head_not {p : Char → Bool} :
    ∀ {l : List Char} {c : Char}, (l.dropWhile p).head? = some c → p c = false := by
  intro l
  induction l with
  | nil => intro c h; simp [List.dropWhile] at h
  | cons a t ih =>
    intro c h
    by_cases hp : p a
    · rw [List.dropWhile_cons_of_pos hp] at h
      exact ih h
    · rw [List.dropWhile_cons_of_neg hp] at h
      simp only [List.head?_cons, Option.some.injEq] at h
      subst h
      exact Bool.eq_false_iff.mpr hp

theorem dropWhile_eq_self_of {p : Char → Bool} {l : List Char}
    (h : ∀ c ∈ l, p c = false) : l.dropWhile p = l := by
  cases l with
  | nil => rfl
  | cons a t =>
    exact List.dropWhile_cons_of_neg (by simp [h a (List.mem_cons_self a t)])

theorem pyStripList_eq_self {cs : List Char}
    (h : ∀ c ∈ cs, isPyWS c = false) : pyStripList cs = cs := by
  unfold pyStripList
  rw [dropWhile_eq_self_of h,
      dropWhile_eq_self_of (fun c hc => h c (List.mem_reverse.mp hc)),
      List.reverse_reverse]

theorem getLast?_mem : ∀ {l : List Char} {c : Char}, l.getLast? = some c → c ∈ l := by
  intro l
  induction l with
  | nil => intro c h; simp at h
  | cons a t ih =>
    intro c h
    cases t with
    | nil => simp only [List.getLast?_singleton, Option.some.injEq] at h; simp [h]
    | cons b u =>
      rw [List.getLast?_cons_cons] at h
      exact List.mem_cons_of_mem a (ih h)

/-! ## C3 : commit-message sanitisation (backend/security.py 140-166) -/

/-- C3 counterexample: the claim's example is off by one space.  The raw
message `"<b>hi</b>\n there"` sanitises to `"hi  there"` (the newline
becomes a space and the original space stays), not to `"hi there"`. -/
theorem commit_message_example_two_spaces :
    validate_commit_message "<b>hi</b>\n there" = .ok "hi  there" ∧
    "hi  there" ≠ "hi there" := by
  constructor
  · decide
  · decide

/-- C3 (amended): `validate_commit_message` strips HTML tags, replaces
newlines with single spaces, removes carriage returns and trims, and only
then applies the 200-character limit to the sanitised string: every
non-empty raw message whose sanitised form is within the limit is
accepted, whatever its raw length; and `"<b>hi</b>\n there"` sanitises to
`"hi  there"`. -/
theorem commit_message_sanitize_before_length :
    (∀ m : String, m ≠ "" →
      (sanitizeCommitMessage m).length ≤ MAX_COMMIT_MESSAGE_LENGTH →
      validate_commit_message m = .ok (sanitizeCommitMessage m)) ∧
    sanitizeCommitMessage "<b>hi</b>\n there" = "hi  there" := by
  constructor
  · intro m hm hlen
    unfold validate_commit_message
    rw [if_neg hm, if_neg (by omega)]
  · decide

set_option maxRecDepth 4000 in
/-- Witness for C3: a 224-character raw message whose sanitised form is
`"ok"` passes validation. -/
theorem commit_message_sanitize_before_length_witness :
    ("<" ++ (List.replicate 220 'x').asString ++ ">ok").length > 200 ∧
    validate_commit_message ("<" ++ (List.replicate 220 'x').asString ++ ">ok") =
      .ok "ok" := by
  refine ⟨by decide, ?_⟩
  have h := commit_message_sanitize_before_length.1
    ("<" ++ (List.replicate 220 'x').asString ++ ">ok") (by decide) (by decide)
  rw [h]
  decide

/-! ## C9 : project-name derivation feeds validate_room_code -/

theorem all_collapseHyphensAux {P : Char → Bool} (hP : P '-' = true) :
    ∀ (b : Bool) (cs : List Char), cs.all P = true →
      (collapseHyphensAux b cs).all P = true := by
  intro b cs
  induction cs generalizing b with
  | nil => intro _; rfl
  | cons a t ih =>
    intro h
    rw [List.all_cons, Bool.and_eq_true] at h
    by_cases ha : a = '-'
    · subst ha
      unfold collapseHyphensAux
      rw [if_pos rfl]
      cases b with
      | true => rw [if_pos rfl]; exact ih true h.2
      | false =>
        rw [if_neg Bool.false_ne_true, List.all_cons, Bool.and_eq_true]
        exact ⟨hP, ih true h.2⟩
    · unfold collapseHyphensAux
      rw [if_neg ha, List.all_cons, Bool.and_eq_true]
      exact ⟨h.1, ih false h.2⟩

theorem mem_stripHyphens {c : Char} {cs : List Char}
    (h : c ∈ stripHyphens cs) : c ∈ cs := by
  unfold stripHyphens at h
  rw [List.mem_reverse] at h
  have h2 := (List.dropWhile_sublist (l := (cs.dropWhile (· = '-')).reverse)
    (p := (· = '-'))).subset h
  rw [List.mem_reverse] at h2
  exact (List.dropWhile_sublist (l := cs) (p := (· = '-'))).subset h2

theorem stripHyphens_head {cs : List Char} {c : Char}
    (h : (stripHyphens cs).head? = some c) : (c = '-') = False := by
  unfold stripHyphens at h
  set d := cs.dropWhile (· = '-') with hd
  set X := d.reverse.dropWhile (· = '-') with hX
  have hpre : X.reverse <+: d := by
    have hsuf : X <:+ d.reverse := List.dropWhile_suffix (· = '-')
    have := List.reverse_prefix.mpr hsuf
    rwa [List.reverse_reverse] at this
  obtain ⟨t, ht⟩ := hpre
  have hda : d.head? = some c := by
    rw [← ht, List.head?_append]
    cases hxr : X.reverse.head? with
    | none => rw [hxr] at h; exact Option.noConfusion h
    | some c2 => rw [hxr] at h; exact h
  have := dropWhile_head_not (p := (· = '-')) hda
  simpa using this

theorem stripHyphens_last {cs : List Char} {c : Char}
    (h : (stripHyphens cs).getLast? = some c) : (c = '-') = False := by
  unfold stripHyphens at h
  rw [List.getLast?_reverse] at h
  have := dropWhile_head_not (p := (· = '-')) h
  simpa using this

theorem roomCodeChar_not_ws {c : Char} (h : isRoomCodeChar c = true) :
    isPyWS c = false := by
  by_contra hws
  rw [Bool.not_eq_false] at hws
  unfold isPyWS at hws
  simp only [Bool.or_eq_true, decide_eq_true_eq] at hws
  rcases hws with ((((h1 | h2) | h3) | h4) | h5) | h6 <;>
    subst_vars <;> exact absurd h (by decide)

theorem roomCodeChar_not_newline {c : Char} (h : isRoomCodeChar c = true) :
    c ≠ '\n' := by
  intro hc; subst hc; exact absurd h (by decide)

theorem toList_asString (l : List Char) : l.asString.toList = l := rfl

theorem projectNameToRoomCode_toList (p : String) :
    (projectNameToRoomCode p).toList =
      stripHyphens (collapseHyphens
        ((((p.toList.map Char.toLower).map fun c => if c = ' ' then '-' else c).map
          fun c => if c = '_' then '-' else c).filter isRoomCodeChar)) := by
  simp only [projectNameToRoomCode, toList_asString]

theorem projectNameToRoomCode_all (p : String) :
    (projectNameToRoomCode p).toList.all isRoomCodeChar = true := by
  rw [projectNameToRoomCode_toList]
  apply List.all_eq_true.mpr
  intro c hc
  have hc2 := mem_stripHyphens hc
  have hall : ((((p.toList.map Char.toLower).map fun c => if c = ' ' then '-' else c).map
      fun c => if c = '_' then '-' else c).filter isRoomCodeChar).all
        isRoomCodeChar = true := by
    apply List.all_eq_true.mpr
    intro x hx
    exact (List.mem_filter.mp hx).2
  exact List.all_eq_true.mp (all_collapseHyphensAux (by decide) false _ hall) c hc2

/-- C9: every room code derived by `validate_project_name` is accepted
verbatim by `validate_room_code`: non-empty, at most 50 characters, only
`[a-z0-9-]`, no leading or trailing hyphen, and
`validate_room_code (validate_project_name p) = validate_project_name p`. -/
theorem project_room_code_roundtrip :
    ∀ (p r : String), validate_project_name p = .ok r →
      r ≠ "" ∧ r.length ≤ MAX_ROOM_CODE_LENGTH ∧
      pyFullMatchPlus isRoomCodeChar r = true ∧
      headIsHyphen r = false ∧ lastIsHyphen r = false ∧
      validate_room_code r = .ok r := by
  intro p r h
  unfold validate_project_name at h
  by_cases hp : p = ""
  · rw [if_pos hp] at h; exact Except.noConfusion h
  rw [if_neg hp] at h
  dsimp only at h
  by_cases h0 : projectNameToRoomCode p = ""
  · rw [if_pos h0] at h; exact Except.noConfusion h
  rw [if_neg h0] at h
  by_cases hlen : (projectNameToRoomCode p).length > MAX_ROOM_CODE_LENGTH
  · rw [if_pos hlen] at h; exact Except.noConfusion h
  rw [if_neg hlen] at h
  have hr : r = projectNameToRoomCode p := (Except.ok.inj h).symm
  subst hr
  have hall := projectNameToRoomCode_all p
  have hlist : (projectNameToRoomCode p).toList ≠ [] :=
    fun hc => h0 ((toList_eq_nil_iff _).mp hc)
  have hlast : ¬ (projectNameToRoomCode p).toList.getLast? = some '\n' := by
    intro hx
    exact roomCodeChar_not_newline (List.all_eq_true.mp hall _ (getLast?_mem hx)) rfl
  have hcore : pyCore (projectNameToRoomCode p).toList =
      (projectNameToRoomCode p).toList := by
    unfold pyCore
    rw [if_neg hlast]
  have hmatch : pyFullMatchPlus isRoomCodeChar (projectNameToRoomCode p) = true := by
    unfold pyFullMatchPlus
    rw [hcore, Bool.and_eq_true]
    refine ⟨?_, hall⟩
    cases hcl : (projectNameToRoomCode p).toList with
    | nil => exact absurd hcl hlist
    | cons a t => rfl
  have hhead : headIsHyphen (projectNameToRoomCode p) = false := by
    unfold headIsHyphen
    rw [decide_eq_false_iff_not]
    intro heq
    rw [projectNameToRoomCode_toList] at heq
    exact (stripHyphens_head heq).mp rfl
  have hlastHy : lastIsHyphen (projectNameToRoomCode p) = false := by
    unfold lastIsHyphen
    rw [decide_eq_false_iff_not]
    intro heq
    rw [projectNameToRoomCode_toList] at heq
    exact (stripHyphens_last heq).mp rfl
  refine ⟨h0, by omega, hmatch, hhead, hlastHy, ?_⟩
  unfold validate_room_code
  rw [if_neg h0, if_neg hlen, hmatch, hhead, hlastHy]
  simp only [Bool.not_true, Bool.false_eq_true, if_false, Bool.or_self]
  have hstrip : pyStrip (projectNameToRoomCode p) = projectNameToRoomCode p := by
    unfold pyStrip
    rw [pyStripList_eq_self, asString_toList]
    intro c hc
    exact roomCodeChar_not_ws (List.all_eq_true.mp hall c hc)
  rw [hstrip]

/-- Witness for C9 at the project name `"My Project"`. -/
theorem project_room_code_roundtrip_witness :
    validate_project_name "My Project" = .ok "my-project" ∧
    validate_room_code "my-project" = .ok "my-project" := by
  refine ⟨by decide, ?_⟩
  exact (project_room_code_roundtrip "My Project" "my-project"
    (by decide)).2.2.2.2.2

/-! ## C7 : FrpsManager.start (proxy/frp_manager.py 57-78) -/

/-- C7 counterexample: the not-configured reason string is
`"frps binary not configured"`, not `"not configured"` as the claim
writes it. -/
theorem frps_start_reason_text :
    ((⟨some "/nonexistent/frps", none, none⟩ : FrpsManagerState).start
        ⟨fun _ => false, fun _ => false, fun _ => false,
         fun _ => .error "e"⟩).1 =
      ⟨false, some "frps binary not configured"⟩ ∧
    some "frps binary not configured" ≠ some "not configured" := by
  refine ⟨rfl, by decide⟩

/-- C7 (amended): `start` is idempotent and total over launch outcomes:
called while a previously started process is still alive it returns
`{started: true}` without spawning a second process (no `Popen` call, no
state change); when not configured it returns
`{started: false, reason: "frps binary not configured"}` without
spawning; otherwise it spawns the process exactly once with both output
streams discarded to `DEVNULL` and returns `{started: true}`, or returns
`{started: false}` with a non-empty spawn-error reason on an OS-level
launch failure (the `OSError` text `str(exc)`, non-empty as the raised
error carries its message). -/
theorem frps_start_behavior :
    ∀ (m : FrpsManagerState) (env : FrpsEnv),
      (processAlive m env = true →
        m.start env = (⟨true, none⟩, m, ([] : List PopenCall))) ∧
      (processAlive m env = false → m.is_configured env = false →
        m.start env = (⟨false, some "frps binary not configured"⟩, m,
          ([] : List PopenCall)) ∧
        "frps binary not configured" ≠ "") ∧
      (∀ pid, processAlive m env = false → m.is_configured env = true →
        env.popen ⟨frpsCmd m, true, true⟩ = .ok pid →
        m.start env = (⟨true, none⟩, { m with process := some pid },
          [⟨frpsCmd m, true, true⟩]) ∧
        (m.start env).2.2.all
          (fun c => c.stdout_to_devnull && c.stderr_to_devnull) = true) ∧
      (∀ e, e ≠ "" → processAlive m env = false → m.is_configured env = true →
        env.popen ⟨frpsCmd m, true, true⟩ = .error e →
        m.start env = (⟨false, some e⟩, m, [⟨frpsCmd m, true, true⟩]) ∧
        (m.start env).1.reason ≠ some "" ∧
        (m.start env).1.reason ≠ none) := by
  intro m env
  refine ⟨?_, ?_, ?_, ?_⟩
  · intro ha
    unfold FrpsManagerState.start
    rw [ha, if_pos rfl]
  · intro ha hc
    unfold FrpsManagerState.start
    rw [ha, hc]
    exact ⟨rfl, by decide⟩
  · intro pid ha hc hp
    have hs : m.start env = (⟨true, none⟩, { m with process := some pid },
        [⟨frpsCmd m, true, true⟩]) := by
      unfold FrpsManagerState.start
      rw [ha, hc, hp]
      simp only [Bool.not_true]
      rw [if_neg Bool.false_ne_true, if_neg Bool.false_ne_true]
    refine ⟨hs, ?_⟩
    rw [hs]
    rfl
  · intro e he ha hc hp
    have hs : m.start env = (⟨false, some e⟩, m, [⟨frpsCmd m, true, true⟩]) := by
      unfold FrpsManagerState.start
      rw [ha, hc, hp]
      simp only [Bool.not_true]
      rw [if_neg Bool.false_ne_true, if_neg Bool.false_ne_true]
    refine ⟨hs, ?_, ?_⟩
    · rw [hs]
      intro hx
      exact he (Option.some.inj hx)
    · rw [hs]
      exact fun hx => Option.noConfusion hx

/-- Witness for C7: the four launch outcomes at concrete managers and
environments; the spawning outcomes record a single `Popen` call with
both output streams discarded, and the failure reason is non-empty. -/
theorem frps_start_behavior_witness :
    (⟨some "frps", none, some 7⟩ : FrpsManagerState).start
        ⟨fun _ => false, fun _ => false, fun _ => true, fun _ => .error "e"⟩ =
      (⟨true, none⟩, ⟨some "frps", none, some 7⟩, []) ∧
    (⟨some "/nonexistent/frps", none, none⟩ : FrpsManagerState).start
        ⟨fun _ => false, fun _ => false, fun _ => false, fun _ => .error "e"⟩ =
      (⟨false, some "frps binary not configured"⟩,
       ⟨some "/nonexistent/frps", none, none⟩, []) ∧
    (⟨some "/usr/bin/frps", some "/etc/frps.toml", none⟩ : FrpsManagerState).start
        ⟨fun _ => true, fun _ => true, fun _ => false, fun _ => .ok 42⟩ =
      (⟨true, none⟩, ⟨some "/usr/bin/frps", some "/etc/frps.toml", some 42⟩,
       [⟨["/usr/bin/frps", "-c", "/etc/frps.toml"], true, true⟩]) ∧
    (⟨some "/usr/bin/frps", none, none⟩ : FrpsManagerState).start
        ⟨fun _ => true, fun _ => true, fun _ => false,
         fun _ => .error "spawn failed"⟩ =
      (⟨false, some "spawn failed"⟩, ⟨some "/usr/bin/frps", none, none⟩,
       [⟨["/usr/bin/frps"], true, true⟩]) ∧
    ((⟨some "/usr/bin/frps", none, none⟩ : FrpsManagerState).start
        ⟨fun _ => true, fun _ => true, fun _ => false,
         fun _ => .error "spawn failed"⟩).1.reason ≠ some "" := by
  refine ⟨?_, ?_, ?_, ?_, ?_⟩
  · exact (frps_start_behavior ⟨some "frps", none, some 7⟩
      ⟨fun _ => false, fun _ => false, fun _ => true, fun _ => .error "e"⟩).1 rfl
  · exact ((frps_start_behavior ⟨some "/nonexistent/frps", none, none⟩
      ⟨fun _ => false, fun _ => false, fun _ => false,
       fun _ => .error "e"⟩).2.1 rfl rfl).1
  · exact ((frps_start_behavior ⟨some "/usr/bin/frps", some "/etc/frps.toml", none⟩
      ⟨fun _ => true, fun _ => true, fun _ => false,
       fun _ => .ok 42⟩).2.2.1 42 rfl rfl rfl).1
  · exact ((frps_start_behavior ⟨some "/usr/bin/frps", none, none⟩
      ⟨fun _ => true, fun _ => true, fun _ => false,
       fun _ => .error "spawn failed"⟩).2.2.2 "spawn failed" (by decide)
      rfl rfl rfl).1
  · exact ((frps_start_behavior ⟨some "/usr/bin/frps", none, none⟩
      ⟨fun _ => true, fun _ => true, fun _ => false,
       fun _ => .error "spawn failed"⟩).2.2.2 "spawn failed" (by decide)
      rfl rfl rfl).2.1

/-! ## C8 : notify_room_clients (proxy/app.py 863-889) -/

theorem foldl_erase_cons {α : Type} [DecidableEq α] (a : α) :
    ∀ (ds t : List α), (∀ x ∈ ds, x ≠ a) →
      ds.foldl (fun l ws => l.erase ws) (a :: t) =
        a :: ds.foldl (fun l ws => l.erase ws) t := by
  intro ds
  induction ds with
  | nil => intro t _; rfl
  | cons d ds ih =>
    intro t h
    have hda : d ≠ a := h d (List.mem_cons_self d ds)
    simp only [List.foldl_cons]
    have hne : ¬((a == d) = true) := fun hh => hda (eq_of_beq hh).symm
    rw [List.erase_cons_tail (by simpa using hne)]
    exact ih (t.erase d) (fun x hx => h x (List.mem_cons_of_mem d hx))

theorem foldl_erase_filter {α : Type} [DecidableEq α] (p : α → Bool) :
    ∀ l : List α, l.Nodup →
      (l.filter (fun c => !p c)).foldl (fun acc ws => acc.erase ws) l =
        l.filter p := by
  intro l
  induction l with
  | nil => intro _; rfl
  | cons a t ih =>
    intro hnd
    rw [List.nodup_cons] at hnd
    by_cases hp : p a
    · rw [List.filter_cons_of_neg (by simp [hp]), List.filter_cons_of_pos hp]
      rw [foldl_erase_cons a _ t
        (fun x hx hxa => hnd.1 (hxa ▸ List.mem_of_mem_filter hx))]
      rw [ih hnd.2]
    · rw [List.filter_cons_of_pos (by simp [hp]), List.filter_cons_of_neg hp]
      simp only [List.foldl_cons]
      rw [List.erase_cons_head]
      exact ih hnd.2

/-- C8 (amended): when the room has an entry in the connection registry,
`notify_room_clients` updates the active-developer cache and then
broadcasts `{type: "commit", room, active_developer}` to every registered
connection, pruning the connections whose send fails; when the room has
no registry entry at all it returns immediately, without touching the
cache and without sending anything. -/
theorem notify_room_clients_behavior :
    ∀ (st : NotifState) (room dev : String),
      (st.clients.lookup room = none →
        notify_room_clients st room dev = (st, [])) ∧
      (∀ conns, st.clients.lookup room = some conns →
        (notify_room_clients st room dev).1.cache =
            dictSet st.cache room dev ∧
        (notify_room_clients st room dev).2 =
          (conns.filter (fun c => c.sendOk)).map
            (fun c => (c, ⟨"commit", room, dev⟩)) ∧
        (conns.Nodup →
          (notify_room_clients st room dev).1.clients =
            dictSet st.clients room (conns.filter (fun c => c.sendOk)))) := by
  intro st room dev
  constructor
  · intro h
    unfold notify_room_clients
    rw [h]
  · intro conns h
    unfold notify_room_clients
    rw [h]
    refine ⟨rfl, rfl, fun hnd => ?_⟩
    dsimp only
    rw [foldl_erase_filter (fun c => c.sendOk) conns hnd]

/-- C8 counterexample: with no registry entry for the room, the call
leaves the cache untouched (the claim asserts the cache is updated on
every call). -/
theorem notify_no_registry_entry_skips_cache :
    (notify_room_clients ⟨[], []⟩ "demo" "alice").1.cache.lookup "demo" ≠
        some "alice" ∧
    notify_room_clients ⟨[], []⟩ "demo" "alice" = (⟨[], []⟩, []) := by
  refine ⟨by decide, rfl⟩

/-- Witness for C8 on a registry with one delivering and one failing
connection. -/
theorem notify_room_clients_behavior_witness :
    (notify_room_clients ⟨[("demo", [⟨1, true⟩, ⟨2, false⟩])], []⟩
        "demo" "alice").1.cache = dictSet [] "demo" "alice" ∧
    (notify_room_clients ⟨[("demo", [⟨1, true⟩, ⟨2, false⟩])], []⟩
        "demo" "alice").2 =
      [(⟨1, true⟩, ⟨"commit", "demo", "alice"⟩)] ∧
    (notify_room_clients ⟨[("demo", [⟨1, true⟩, ⟨2, false⟩])], []⟩
        "demo" "alice").1.clients =
      dictSet [("demo", [⟨1, true⟩, ⟨2, false⟩])] "demo" [⟨1, true⟩] := by
  have h := (notify_room_clients_behavior
    ⟨[("demo", [⟨1, true⟩, ⟨2, false⟩])], []⟩ "demo" "alice").2
    [⟨1, true⟩, ⟨2, false⟩] rfl
  refine ⟨h.1, ?_, ?_⟩
  · rw [h.2.1]; decide
  · rw [h.2.2 (by decide)]; decide

/-! ## C1 : active-developer resolution -/

theorem lookup_some_mem_keys {ps : Participants} {d : String} {i : PInfo}
    (h : List.lookup d ps = some i) : ∃ q ∈ ps, q.1 = d := by
  induction ps with
  | nil => simp [List.lookup] at h
  | cons q t ih =>
    obtain ⟨k, v⟩ := q
    cases hbeq : (d == k) with
    | true => exact ⟨(k, v), List.mem_cons_self _ _, (eq_of_beq hbeq).symm⟩
    | false =>
      simp only [List.lookup, hbeq] at h
      obtain ⟨p0, hp0, h1⟩ := ih h
      exact ⟨p0, List.mem_cons_of_mem _ hp0, h1⟩

theorem mem_keys_lookup_isSome {ps : Participants} {d : String}
    (h : ∃ q ∈ ps, q.1 = d) : (List.lookup d ps).isSome = true := by
  induction ps with
  | nil => obtain ⟨q, hq, _⟩ := h; simp at hq
  | cons q t ih =>
    obtain ⟨p0, hp0, hp1⟩ := h
    obtain ⟨k, v⟩ := q
    cases hbeq : (d == k) with
    | true => simp [List.lookup, hbeq]
    | false =>
      rw [List.mem_cons] at hp0
      cases hp0 with
      | inl he =>
        have hdk : d = k := by rw [← hp1, he]
        rw [hdk, beq_self_eq_true] at hbeq
        exact Bool.noConfusion hbeq
      | inr ht =>
        simp only [List.lookup, hbeq]
        exact ih ⟨p0, ht, hp1⟩

theorem activeStage1_eq (commits : List Commit) (ps : Participants) :
    activeStage1 commits ps = findCommitActive commits ps := by
  cases commits with
  | nil => rfl
  | cons c cs => rfl

theorem findCommitActive_nil (commits : List Commit) :
    findCommitActive commits [] = none := by
  unfold findCommitActive
  rw [List.find?_eq_none.mpr (fun x _ => by simp [List.lookup])]
  rfl

theorem activeDeveloper_nil (commits : List Commit) :
    activeDeveloperGetActiveUrl commits [] = none := by
  unfold activeDeveloperGetActiveUrl activeStage2 activeStage3
  rw [activeStage1_eq, findCommitActive_nil]
  simp [pyFalsy]

theorem pyFalsy_some_ne {s : String} (h : s ≠ "") : pyFalsy (some s) = false := by
  simp [pyFalsy, h]

/-- C1: for every room, `get-active-url` and `rooms/status` resolve the
active developer identically, and both implement the specified rule:
newest-to-oldest commit scan for a connected committer (legacy entries
count as connected), then first connected participant in insertion order,
then the very first participant, and `none` for an empty room.  The
hypothesis reflects that every stored developer id is a validated
non-empty string. -/
theorem active_developer_resolution :
    ∀ (commits : List Commit) (participants : Participants),
      (∀ q ∈ participants, q.1 ≠ "") →
      activeDeveloperGetActiveUrl commits participants =
          specActiveDeveloper commits participants ∧
      activeDeveloperRoomStatus commits participants =
          activeDeveloperGetActiveUrl commits participants := by
  intro commits ps hne
  refine ⟨?_, rfl⟩
  by_cases hps : ps.isEmpty = true
  · have hnil : ps = [] := by
      cases ps with
      | nil => rfl
      | cons a t => exact Bool.noConfusion hps
    subst hnil
    rw [activeDeveloper_nil]
    rfl
  · have hpsf : ps.isEmpty = false := Bool.not_eq_true _ ▸ hps
    unfold activeDeveloperGetActiveUrl specActiveDeveloper
    rw [activeStage1_eq, if_neg (by simp [hpsf])]
    unfold findCommitActive
    cases hfind : commits.reverse.find? (fun c =>
        match ps.lookup c.developer_id with
        | some info => info.isConnected
        | none => false) with
    | some c =>
      have hpred := List.find?_some hfind
      have hlk : (ps.lookup c.developer_id).isSome = true := by
        cases hl : ps.lookup c.developer_id with
        | none => rw [hl] at hpred; exact Bool.noConfusion hpred
        | some info => rfl
      have hcne : c.developer_id ≠ "" := by
        cases hl : ps.lookup c.developer_id with
        | none => rw [hl] at hlk; exact Bool.noConfusion hlk
        | some info =>
          obtain ⟨q, hq, hq1⟩ := lookup_some_mem_keys hl
          exact hq1 ▸ hne q hq
      simp [activeStage2, activeStage3, pyFalsy_some_ne hcne]
    | none =>
      unfold activeStage2 activeStage3 findFirstConnected
      cases hfc : ps.find? (fun p => p.2.isConnected) with
      | some q =>
        have hqne : q.1 ≠ "" := hne q (List.mem_of_find?_eq_some hfc)
        simp only [pyFalsy, hpsf, Option.map_some', Bool.not_false,
          Bool.and_true, decide_eq_true_eq]
        show (if decide (q.1 = "") = true then Option.map Prod.fst ps.head?
              else some q.1) = some q.1
        rw [if_neg (by simpa using hqne)]
      | none =>
        simp [pyFalsy, hpsf]

/-- Witness for C1: a room where the newest committer is disconnected and
the scan falls back to the connected creator. -/
theorem active_developer_resolution_witness :
    activeDeveloperGetActiveUrl
        [⟨"a1b2c3d", "main", "m1", "alice", 1⟩, ⟨"d4e5f6a", "main", "m2", "bob", 2⟩]
        [("alice", .legacy "http://dev-alice-demo.m-act.live"),
         ("bob", .structured "http://dev-bob-demo.m-act.live" false)] =
      specActiveDeveloper
        [⟨"a1b2c3d", "main", "m1", "alice", 1⟩, ⟨"d4e5f6a", "main", "m2", "bob", 2⟩]
        [("alice", .legacy "http://dev-alice-demo.m-act.live"),
         ("bob", .structured "http://dev-bob-demo.m-act.live" false)] ∧
    specActiveDeveloper
        [⟨"a1b2c3d", "main", "m1", "alice", 1⟩, ⟨"d4e5f6a", "main", "m2", "bob", 2⟩]
        [("alice", .legacy "http://dev-alice-demo.m-act.live"),
         ("bob", .structured "http://dev-bob-demo.m-act.live" false)] =
      some "alice" := by
  refine ⟨(active_developer_resolution _ _ (by decide)).1, by decide⟩

/-! ## C5 : get-active-url status codes -/

theorem stage3_mem {ps : Participants} {a : Option String} {d : String}
    (h3 : activeStage3 ps a = some d) : a = some d ∨ ∃ q ∈ ps, q.1 = d := by
  unfold activeStage3 at h3
  split at h3
  · right
    cases ps with
    | nil => simp at h3
    | cons q t =>
      refine ⟨q, List.mem_cons_self q t, ?_⟩
      simpa using h3
  · left; exact h3

theorem stage2_mem {ps : Participants} {a : Option String} {d : String}
    (h2 : activeStage2 ps a = some d) : a = some d ∨ ∃ q ∈ ps, q.1 = d := by
  unfold activeStage2 findFirstConnected at h2
  split at h2
  · cases hfc : ps.find? (fun p => p.2.isConnected) with
    | some q =>
      rw [hfc] at h2
      simp only [Option.map_some'] at h2
      exact Or.inr ⟨q, List.mem_of_find?_eq_some hfc, Option.some.inj h2⟩
    | none =>
      rw [hfc] at h2
      exact Or.inl h2
  · left; exact h2

theorem stage1_mem {commits : List Commit} {ps : Participants} {d : String}
    (h1 : activeStage1 commits ps = some d) : ∃ q ∈ ps, q.1 = d := by
  rw [activeStage1_eq] at h1
  unfold findCommitActive at h1
  cases hfind : commits.reverse.find? (fun c =>
      match ps.lookup c.developer_id with
      | some info => info.isConnected
      | none => false) with
  | none => rw [hfind] at h1; exact Option.noConfusion h1
  | some c =>
    rw [hfind] at h1
    simp only [Option.map_some'] at h1
    have hpred := List.find?_some hfind
    cases hl : ps.lookup c.developer_id with
    | none => rw [hl] at hpred; exact Bool.noConfusion hpred
    | some info =>
      obtain ⟨q, hq, hq1⟩ := lookup_some_mem_keys hl
      exact ⟨q, hq, hq1.trans (Option.some.inj h1)⟩

/-- Every resolved active developer is the key of some participant. -/
theorem activeDeveloper_mem {commits : List Commit} {ps : Participants}
    {d : String} (h : activeDeveloperGetActiveUrl commits ps = some d) :
    ∃ q ∈ ps, q.1 = d := by
  unfold activeDeveloperGetActiveUrl at h
  rcases stage3_mem h with h2 | hq
  · rcases stage2_mem h2 with h1 | hq
    · exact stage1_mem h1
    · exact hq
  · exact hq

/-- C5 (amended): a `get-active-url` request whose `room` parameter is
absent, empty, or passes room-code validation always gets status 200,
and the body's `active_url` is null in each of the no-resolution cases:
parameter absent or empty, unknown room, room without participants,
falsy resolution, and resolved developer with an empty stored URL; a
non-empty parameter that fails validation gets a 400 validation-error
response instead. -/
theorem get_active_url_status :
    (∀ (rooms : Rooms) (rp : Option String), roomParamAccepted rp →
      (get_active_url rooms rp).1 = 200) ∧
    (∀ (rooms : Rooms) (r e : String), r ≠ "" →
      validate_room_code r = .error e →
      get_active_url rooms (some r) = (400, .err "Validation failed" (some e))) ∧
    (∀ rooms : Rooms, get_active_url rooms none = (200, .activeUrl none)) ∧
    (∀ rooms : Rooms, get_active_url rooms (some "") = (200, .activeUrl none)) ∧
    (∀ (rooms : Rooms) (r rc : String), r ≠ "" →
      validate_room_code r = .ok rc → rooms.lookup rc = none →
      get_active_url rooms (some r) = (200, .activeUrl none)) ∧
    (∀ (rooms : Rooms) (r rc : String) (room : Room), r ≠ "" →
      validate_room_code r = .ok rc → rooms.lookup rc = some room →
      room.participants = [] →
      get_active_url rooms (some r) = (200, .activeUrl none)) ∧
    (∀ (rooms : Rooms) (r rc : String) (room : Room), r ≠ "" →
      validate_room_code r = .ok rc → rooms.lookup rc = some room →
      pyFalsy (activeDeveloperGetActiveUrl room.commits room.participants) = true →
      get_active_url rooms (some r) = (200, .activeUrl none)) ∧
    (∀ (rooms : Rooms) (r rc : String) (room : Room) (info : PInfo), r ≠ "" →
      validate_room_code r = .ok rc → rooms.lookup rc = some room →
      pyFalsy (activeDeveloperGetActiveUrl room.commits room.participants) = false →
      room.participants.lookup
          ((activeDeveloperGetActiveUrl room.commits room.participants).getD "")
        = some info →
      info.subdomainUrl = "" →
      get_active_url rooms (some r) = (200, .activeUrl none)) := by
  refine ⟨?_, ?_, fun rooms => rfl, fun rooms => rfl, ?_, ?_, ?_, ?_⟩
  · intro rooms rp h
    cases rp with
    | none => rfl
    | some r =>
      unfold get_active_url
      dsimp only
      by_cases hr : r = ""
      · rw [if_pos hr]
      rw [if_neg hr]
      unfold roomParamAccepted at h
      rcases h with h | ⟨rc, hv⟩
      · exact absurd h hr
      simp only [hv]
      cases hlk : rooms.lookup rc with
      | none => rfl
      | some room =>
        dsimp only
        by_cases hpe : room.participants.isEmpty = true
        · rw [if_pos hpe]
        rw [if_neg hpe]
        by_cases hfa : pyFalsy (activeDeveloperGetActiveUrl room.commits
            room.participants) = true
        · rw [if_pos hfa]
        rw [if_neg hfa]
        cases had : activeDeveloperGetActiveUrl room.commits room.participants with
        | none => exact absurd (had ▸ rfl) hfa
        | some d =>
          have hsome := mem_keys_lookup_isSome (activeDeveloper_mem had)
          cases hlk2 : room.participants.lookup d with
          | none => rw [hlk2] at hsome; exact Bool.noConfusion hsome
          | some info =>
            simp only [had, Option.getD_some, hlk2]
            split <;> rfl
  · intro rooms r e hr hv
    unfold get_active_url
    dsimp only
    rw [if_neg hr]
    simp only [hv]
  · intro rooms r rc hr hv hlk
    unfold get_active_url
    dsimp only
    rw [if_neg hr]
    simp only [hv, hlk]
  · intro rooms r rc room hr hv hlk hpe
    unfold get_active_url
    dsimp only
    rw [if_neg hr]
    simp only [hv, hlk]
    rw [hpe]
    rfl
  · intro rooms r rc room hr hv hlk hfa
    unfold get_active_url
    dsimp only
    rw [if_neg hr]
    simp only [hv, hlk]
    by_cases hpe : room.participants.isEmpty = true
    · rw [if_pos hpe]
    · rw [if_neg hpe, hfa, if_pos rfl]
  · intro rooms r rc room info hr hv hlk hfa hlk2 hsub
    unfold get_active_url
    dsimp only
    rw [if_neg hr]
    simp only [hv, hlk]
    have hpe : room.participants.isEmpty = false := by
      cases hps : room.participants with
      | nil =>
        rw [hps, activeDeveloper_nil] at hfa
        exact Bool.noConfusion hfa
      | cons a t => rfl
    rw [hpe, if_neg Bool.false_ne_true, hfa, if_neg Bool.false_ne_true]
    simp only [hlk2]
    rw [if_pos hsub]

/-- C5 counterexample: the room parameter `"A"` fails validation and the
response status is 400, so not every response has status 200. -/
theorem get_active_url_invalid_param_not_200 :
    (get_active_url [] (some "A")).1 = 400 ∧
    (get_active_url [] (some "A")).1 ≠ 200 := by
  refine ⟨by decide, by decide⟩

/-- Witness for C5: a valid room parameter gets a 200, an invalid one the
400 validation error, and the unknown-room, no-participant and
unresolvable-URL cases all answer with a null `active_url`. -/
theorem get_active_url_status_witness :
    (get_active_url [] (some "demo")).1 = 200 ∧
    get_active_url [] (some "ABC") =
      (400, .err "Validation failed"
        (some "room_code must contain only lowercase letters, numbers, and hyphens")) ∧
    get_active_url [] (some "nosuch") = (200, .activeUrl none) ∧
    get_active_url [("demo", ⟨[], []⟩)] (some "demo") = (200, .activeUrl none) ∧
    get_active_url [("demo", ⟨[("alice", .legacy "")], []⟩)] (some "demo") =
      (200, .activeUrl none) := by
  refine ⟨?_, ?_, ?_, ?_, ?_⟩
  · exact get_active_url_status.1 [] (some "demo") (Or.inr ⟨"demo", by decide⟩)
  · exact get_active_url_status.2.1 [] "ABC"
      "room_code must contain only lowercase letters, numbers, and hyphens"
      (by decide) (by decide)
  · exact get_active_url_status.2.2.2.2.1 [] "nosuch" "nosuch" (by decide)
      (by decide) rfl
  · exact get_active_url_status.2.2.2.2.2.1 [("demo", ⟨[], []⟩)] "demo" "demo"
      ⟨[], []⟩ (by decide) (by decide) rfl rfl
  · exact get_active_url_status.2.2.2.2.2.2.2
      [("demo", ⟨[("alice", .legacy "")], []⟩)] "demo" "demo"
      ⟨[("alice", .legacy "")], []⟩ (.legacy "") (by decide) (by decide) rfl
      (by decide) (by decide) rfl

/-! ## C2 : the `|Host:` active-url convention -/

theorem isPrefixOf_append_self (l r : List Char) : l.isPrefixOf (l ++ r) = true := by
  induction l with
  | nil => cases r <;> rfl
  | cons a t ih => simp [List.isPrefixOf, ih]

theorem splitOnce_at (sep : List Char) (t0 : List Char) (hsep : sep = '|' :: t0) :
    ∀ (a b : List Char), (∀ c ∈ a, c ≠ '|') →
      splitOnce sep (a ++ (sep ++ b)) = some (a, b) := by
  intro a
  induction a with
  | nil =>
    intro b _
    rw [List.nil_append]
    have hcons : sep ++ b = '|' :: (t0 ++ b) := by rw [hsep]; rfl
    rw [hcons]
    unfold splitOnce
    rw [← hcons, if_pos (isPrefixOf_append_self sep b), List.drop_left]
  | cons x a' ih =>
    intro b hx
    rw [List.cons_append]
    show splitOnce sep (x :: (a' ++ (sep ++ b))) = some (x :: a', b)
    unfold splitOnce
    have hxe : x ≠ '|' := hx x (List.mem_cons_self _ _)
    have hb : ('|' == x) = false :=
      beq_eq_false_iff_ne.mpr (fun hh => hxe hh.symm)
    have hnp : sep.isPrefixOf (x :: (a' ++ (sep ++ b))) = false := by
      rw [hsep]
      simp [List.isPrefixOf, hb]
    rw [if_neg (by simp [hnp])]
    rw [ih b (fun c hc => hx c (List.mem_cons_of_mem x hc))]

theorem toList_append (s t : String) : (s ++ t).toList = s.toList ++ t.toList :=
  String.data_append s t

/-- C2: whenever `get-active-url` resolves an active developer whose
stored subdomain URL is non-empty, the returned `active_url` is the
literal `"http://127.0.0.1:7101|Host:"` followed by the URL's parsed
network authority; and the proxy mirror splits any such string at the
first `"|Host:"` into the base address and the Host-header override.
The example URL parses to `dev-alice-demo.m-act.live`. -/
theorem active_url_host_convention :
    (∀ H : String, mirrorParseActiveUrl ("http://127.0.0.1:7101|Host:" ++ H) =
        ("http://127.0.0.1:7101", some H)) ∧
    (∀ (rooms : Rooms) (r rc : String) (room : Room) (info : PInfo),
      r ≠ "" → validate_room_code r = .ok rc →
      rooms.lookup rc = some room →
      pyFalsy (activeDeveloperGetActiveUrl room.commits room.participants) = false →
      room.participants.lookup
          ((activeDeveloperGetActiveUrl room.commits room.participants).getD "")
        = some info →
      info.subdomainUrl ≠ "" →
      get_active_url rooms (some r) =
        (200, .activeUrl (some ("http://127.0.0.1:7101|Host:" ++
          urlparse_netloc info.subdomainUrl)))) ∧
    urlparse_netloc "http://dev-alice-demo.m-act.live" =
      "dev-alice-demo.m-act.live" := by
  refine ⟨?_, ?_, by decide⟩
  · intro H
    unfold mirrorParseActiveUrl
    have hdata : ("http://127.0.0.1:7101|Host:" ++ H).toList =
        "http://127.0.0.1:7101".toList ++ ("|Host:".toList ++ H.toList) := by
      rw [toList_append]
      rw [show ("http://127.0.0.1:7101|Host:").toList =
        "http://127.0.0.1:7101".toList ++ "|Host:".toList by decide]
      rw [List.append_assoc]
    rw [hdata, splitOnce_at "|Host:".toList "Host:".toList (by decide) _ _
      (by decide)]
    dsimp only
    rw [asString_toList, asString_toList]
  · intro rooms r rc room info hr hv hlk hfa hlk2 hsub
    unfold get_active_url
    dsimp only
    rw [if_neg hr]
    simp only [hv, hlk]
    have hpe : room.participants.isEmpty = false := by
      cases hps : room.participants with
      | nil =>
        rw [hps, activeDeveloper_nil] at hfa
        exact Bool.noConfusion hfa
      | cons a t => rfl
    rw [hpe, if_neg Bool.false_ne_true, hfa, if_neg Bool.false_ne_true]
    simp only [hlk2]
    rw [if_neg hsub]

/-- Witness for C2 on a one-participant room. -/
theorem active_url_host_convention_witness :
    get_active_url
        [("demo", ⟨[("alice", .legacy "http://dev-alice-demo.m-act.live")], []⟩)]
        (some "demo") =
      (200, .activeUrl (some "http://127.0.0.1:7101|Host:dev-alice-demo.m-act.live")) ∧
    mirrorParseActiveUrl "http://127.0.0.1:7101|Host:dev-alice-demo.m-act.live" =
      ("http://127.0.0.1:7101", some "dev-alice-demo.m-act.live") := by
  constructor
  · have h := active_url_host_convention.2.1
      [("demo", ⟨[("alice", .legacy "http://dev-alice-demo.m-act.live")], []⟩)]
      "demo" "demo" ⟨[("alice", .legacy "http://dev-alice-demo.m-act.live")], []⟩
      (.legacy "http://dev-alice-demo.m-act.live")
      (by decide) (by decide) rfl (by decide) (by decide) (by decide)
    rw [h]
    decide
  · have h := active_url_host_convention.1 "dev-alice-demo.m-act.live"
    rw [show ("http://127.0.0.1:7101|Host:dev-alice-demo.m-act.live" : String) =
      "http://127.0.0.1:7101|Host:" ++ "dev-alice-demo.m-act.live" by decide]
    exact h

/-! ## C4 : legacy vs structured participant shapes -/

/-- C4: `rooms/create` stores its creator as a legacy bare-string
participant while `rooms/join` stores the structured
`{subdomain_url, connected: true}` record (in both the new-participant
and the rejoin branch), and the status serialisation reports
`connected: true` for every legacy entry and the stored flag for every
structured entry — so both shapes report `connected: true` right after
create and join. -/
theorem participant_shapes_and_status :
    (∀ (rooms : Rooms) (pn di su rc dev url : String),
      validate_project_name pn = .ok rc →
      validate_developer_id di = .ok dev →
      validate_subdomain_url su = .ok url →
      dictMem rooms rc = false →
      create_room rooms pn di su =
        ((201, .created rc ("http://" ++ rc ++ ".m-act.live")),
         dictSet rooms rc ⟨[(dev, .legacy url)], []⟩)) ∧
    (∀ (rooms : Rooms) (rco di su rc dev url : String) (room : Room),
      validate_room_code rco = .ok rc →
      validate_developer_id di = .ok dev →
      validate_subdomain_url su = .ok url →
      rooms.lookup rc = some room →
      (join_room rooms rco di su).2 =
        dictSet rooms rc
          { room with
            participants := dictSet room.participants dev (.structured url true) }) ∧
    (∀ d u, statusEntryOf d (.legacy u) = ⟨d, u, true⟩) ∧
    (∀ d u c, statusEntryOf d (.structured u c) = ⟨d, u, c⟩) := by
  refine ⟨?_, ?_, fun d u => rfl, fun d u c => rfl⟩
  · intro rooms pn di su rc dev url h1 h2 h3 h4
    unfold create_room
    rw [h1, h2, h3]
    dsimp only
    rw [h4, if_neg Bool.false_ne_true]
  · intro rooms rco di su rc dev url room h1 h2 h3 h4
    unfold join_room
    rw [h1, h2, h3]
    dsimp only
    rw [h4]
    dsimp only
    split <;> rfl

/-- Witness for C4: creating room `"demo"` stores a legacy entry and a
join stores a structured connected entry; both serialise with
`connected: true`. -/
theorem participant_shapes_and_status_witness :
    create_room [] "demo" "alice" "http://dev-alice-demo.m-act.live" =
      ((201, .created "demo" "http://demo.m-act.live"),
       [("demo", ⟨[("alice", .legacy "http://dev-alice-demo.m-act.live")], []⟩)]) ∧
    (join_room [("demo", ⟨[("alice", .legacy "http://dev-alice-demo.m-act.live")], []⟩)]
        "demo" "bob" "http://dev-bob-demo.m-act.live").2 =
      [("demo",
        ⟨[("alice", .legacy "http://dev-alice-demo.m-act.live"),
          ("bob", .structured "http://dev-bob-demo.m-act.live" true)], []⟩)] ∧
    statusEntryOf "alice" (.legacy "http://dev-alice-demo.m-act.live") =
      ⟨"alice", "http://dev-alice-demo.m-act.live", true⟩ ∧
    statusEntryOf "bob" (.structured "http://dev-bob-demo.m-act.live" true) =
      ⟨"bob", "http://dev-bob-demo.m-act.live", true⟩ := by
  refine ⟨?_, ?_, ?_, ?_⟩
  · have h := participant_shapes_and_status.1 [] "demo" "alice"
      "http://dev-alice-demo.m-act.live" "demo" "alice"
      "http://dev-alice-demo.m-act.live" (by decide) (by decide) (by decide) rfl
    rw [h]
    decide
  · have h := participant_shapes_and_status.2.1
      [("demo", ⟨[("alice", .legacy "http://dev-alice-demo.m-act.live")], []⟩)]
      "demo" "bob" "http://dev-bob-demo.m-act.live" "demo" "bob"
      "http://dev-bob-demo.m-act.live"
      ⟨[("alice", .legacy "http://dev-alice-demo.m-act.live")], []⟩
      (by decide) (by decide) (by decide) rfl
    rw [h]
    decide
  · exact participant_shapes_and_status.2.2.1 "alice"
      "http://dev-alice-demo.m-act.live"
  · exact participant_shapes_and_status.2.2.2 "bob"
      "http://dev-bob-demo.m-act.live" true

/-! ## C6 / C10 : error bodies and state preservation -/

theorem requestJsonCheck_err (required : List String) (isJson : Bool)
    (data : List (String × String)) (resp : Resp)
    (h : requestJsonCheck required isJson data = some resp) :
    isErrStatus resp.1 = true ∧ ErrShape resp.2 := by
  unfold requestJsonCheck at h
  dsimp only at h
  split_ifs at h
  all_goals
    first
      | exact Option.noConfusion h
      | (injection h with h; subst h;
         exact ⟨rfl, _, _, rfl, by decide, fun _ => rfl⟩)

theorem adminAuthCheck_err (ah ak key : String) (resp : Resp)
    (h : adminAuthCheck ah ak key = some resp) :
    isErrStatus resp.1 = true ∧ ErrShape resp.2 := by
  unfold adminAuthCheck at h
  dsimp only at h
  split_ifs at h
  all_goals
    first
      | exact Option.noConfusion h
      | (injection h with h; subst h;
         exact ⟨rfl, _, _, rfl, by decide, fun _ => rfl⟩)

theorem create_room_err (rooms : Rooms) (pn di su : String) :
    isErrStatus (create_room rooms pn di su).1.1 = true →
      ErrShape (create_room rooms pn di su).1.2 ∧
      (create_room rooms pn di su).2 = rooms := by
  unfold create_room
  repeat' split
  all_goals
    first
      | exact fun h => Bool.noConfusion h
      | exact fun _ => ⟨⟨_, _, rfl, by decide, fun _ => rfl⟩, rfl⟩
      | exact fun _ => ⟨⟨_, _, rfl, by decide, by decide⟩, rfl⟩

theorem join_room_err (rooms : Rooms) (rc di su : String) :
    isErrStatus (join_room rooms rc di su).1.1 = true →
      ErrShape (join_room rooms rc di su).1.2 ∧
      (join_room rooms rc di su).2 = rooms := by
  unfold join_room
  repeat' split
  all_goals
    first
      | exact fun h => Bool.noConfusion h
      | exact fun _ => ⟨⟨_, _, rfl, by decide, fun _ => rfl⟩, rfl⟩
      | exact fun _ => ⟨⟨_, _, rfl, by decide, by decide⟩, rfl⟩

theorem leave_room_err (rooms : Rooms) (rc di : String) :
    isErrStatus (leave_room rooms rc di).1.1 = true →
      ErrShape (leave_room rooms rc di).1.2 ∧
      (leave_room rooms rc di).2 = rooms := by
  unfold leave_room
  repeat' split
  all_goals
    first
      | exact fun h => Bool.noConfusion h
      | exact fun _ => ⟨⟨_, _, rfl, by decide, fun _ => rfl⟩, rfl⟩
      | exact fun _ => ⟨⟨_, _, rfl, by decide, by decide⟩, rfl⟩

theorem report_commit_err (rooms : Rooms) (rc di ch br msg : String) (now : Nat) :
    isErrStatus (report_commit rooms rc di ch br msg now).1.1 = true →
      ErrShape (report_commit rooms rc di ch br msg now).1.2 ∧
      (report_commit rooms rc di ch br msg now).2 = rooms := by
  unfold report_commit
  repeat' split
  all_goals
    first
      | exact fun h => Bool.noConfusion h
      | exact fun _ => ⟨⟨_, _, rfl, by decide, fun _ => rfl⟩, rfl⟩
      | exact fun _ => ⟨⟨_, _, rfl, by decide, by decide⟩, rfl⟩

theorem get_active_url_err (rooms : Rooms) (rp : Option String) :
    isErrStatus (get_active_url rooms rp).1 = true →
      ErrShape (get_active_url rooms rp).2 := by
  unfold get_active_url
  dsimp only
  repeat' split
  all_goals
    first
      | exact fun h => Bool.noConfusion h
      | exact fun _ => ⟨_, _, rfl, by decide, fun _ => rfl⟩
      | exact fun _ => ⟨_, _, rfl, by decide, by decide⟩

theorem get_room_status_err (rooms : Rooms) (rp : Option String) :
    isErrStatus (get_room_status rooms rp).1 = true →
      ErrShape (get_room_status rooms rp).2 := by
  unfold get_room_status
  repeat' split
  all_goals
    first
      | exact fun h => Bool.noConfusion h
      | exact fun _ => ⟨_, _, rfl, by decide, fun _ => rfl⟩
      | exact fun _ => ⟨_, _, rfl, by decide, by decide⟩

theorem get_room_commits_err (rooms : Rooms) (rc : String) :
    isErrStatus (get_room_commits rooms rc).1 = true →
      ErrShape (get_room_commits rooms rc).2 := by
  unfold get_room_commits
  repeat' split
  all_goals
    first
      | exact fun h => Bool.noConfusion h
      | exact fun _ => ⟨_, _, rfl, by decide, fun _ => rfl⟩
      | exact fun _ => ⟨_, _, rfl, by decide, by decide⟩

theorem list_all_rooms_err (rooms : Rooms) (ah ak key : String) :
    isErrStatus (list_all_rooms rooms ah ak key).1 = true →
      ErrShape (list_all_rooms rooms ah ak key).2 := by
  unfold list_all_rooms
  cases hq : adminAuthCheck ah ak key with
  | some resp => exact fun _ => (adminAuthCheck_err ah ak key resp hq).2
  | none => exact fun h => Bool.noConfusion h

theorem delete_room_err (rooms : Rooms) (ah ak key rc : String) :
    isErrStatus (delete_room rooms ah ak key rc).1.1 = true →
      ErrShape (delete_room rooms ah ak key rc).1.2 ∧
      (delete_room rooms ah ak key rc).2 = rooms := by
  unfold delete_room
  cases hq : adminAuthCheck ah ak key with
  | some resp => exact fun _ => ⟨(adminAuthCheck_err ah ak key resp hq).2, rfl⟩
  | none =>
    dsimp only
    repeat' split
    all_goals
      first
        | exact fun h => Bool.noConfusion h
        | exact fun _ => ⟨⟨_, _, rfl, by decide, fun _ => rfl⟩, rfl⟩
        | exact fun _ => ⟨⟨_, _, rfl, by decide, by decide⟩, rfl⟩

/-- C6 (amended): every 400/401/403/404/409 response body from the
backend endpoints is a JSON object with a non-empty `"error"` field,
and the bodies produced by the `ValidationError` handler and by the two
security decorators additionally carry a `"message"` field (the 409
duplicate-room counterexample shows `"message"` is not universal). -/
theorem error_response_bodies :
    ∀ (rooms : Rooms) (isJson : Bool) (data : List (String × String))
      (now : Nat) (ah ak key rc : String) (rp : Option String),
      (isErrStatus (create_room_endpoint rooms isJson data).1.1 = true →
        ErrShape (create_room_endpoint rooms isJson data).1.2) ∧
      (isErrStatus (join_room_endpoint rooms isJson data).1.1 = true →
        ErrShape (join_room_endpoint rooms isJson data).1.2) ∧
      (isErrStatus (leave_room_endpoint rooms isJson data).1.1 = true →
        ErrShape (leave_room_endpoint rooms isJson data).1.2) ∧
      (isErrStatus (report_commit_endpoint rooms isJson data now).1.1 = true →
        ErrShape (report_commit_endpoint rooms isJson data now).1.2) ∧
      (isErrStatus (get_active_url rooms rp).1 = true →
        ErrShape (get_active_url rooms rp).2) ∧
      (isErrStatus (get_room_status rooms rp).1 = true →
        ErrShape (get_room_status rooms rp).2) ∧
      (isErrStatus (get_room_commits rooms rc).1 = true →
        ErrShape (get_room_commits rooms rc).2) ∧
      (isErrStatus (list_all_rooms rooms ah ak key).1 = true →
        ErrShape (list_all_rooms rooms ah ak key).2) ∧
      (isErrStatus (delete_room rooms ah ak key rc).1.1 = true →
        ErrShape (delete_room rooms ah ak key rc).1.2) := by
  intro rooms isJson data now ah ak key rc rp
  refine ⟨?_, ?_, ?_, ?_, get_active_url_err rooms rp,
    get_room_status_err rooms rp, get_room_commits_err rooms rc,
    list_all_rooms_err rooms ah ak key,
    fun h => (delete_room_err rooms ah ak key rc h).1⟩
  · unfold create_room_endpoint
    cases hq : requestJsonCheck ["project_name", "developer_id", "subdomain_url"]
        isJson data with
    | some resp => exact fun _ => (requestJsonCheck_err _ _ _ _ hq).2
    | none => exact fun h => (create_room_err rooms _ _ _ h).1
  · unfold join_room_endpoint
    cases hq : requestJsonCheck ["room_code", "developer_id", "subdomain_url"]
        isJson data with
    | some resp => exact fun _ => (requestJsonCheck_err _ _ _ _ hq).2
    | none => exact fun h => (join_room_err rooms _ _ _ h).1
  · unfold leave_room_endpoint
    cases hq : requestJsonCheck ["room_code", "developer_id"] isJson data with
    | some resp => exact fun _ => (requestJsonCheck_err _ _ _ _ hq).2
    | none => exact fun h => (leave_room_err rooms _ _ h).1
  · unfold report_commit_endpoint
    cases hq : requestJsonCheck
        ["room_code", "developer_id", "commit_hash", "branch", "commit_message"]
        isJson data with
    | some resp => exact fun _ => (requestJsonCheck_err _ _ _ _ hq).2
    | none => exact fun h => (report_commit_err rooms _ _ _ _ _ now h).1

/-- C6 counterexample: the 409 duplicate-room body has no `"message"`
field, so not every error body carries both fields. -/
theorem duplicate_room_409_has_no_message :
    (create_room
        [("demo", ⟨[("alice", .legacy "http://dev-alice-demo.m-act.live")], []⟩)]
        "demo" "alice" "http://dev-alice-demo.m-act.live").1 =
      (409, .err "Room with this project name already exists" none) := by
  decide

/-- Witness for C6: a non-JSON create request yields an error-shaped
400 body. -/
theorem error_response_bodies_witness :
    ErrShape (create_room_endpoint [] false []).1.2 :=
  (error_response_bodies [] false [] 0 "" "" "changeme-in-production" "demo"
    none).1 (by decide)

/-- C10: whenever a mutating backend endpoint (create, join, leave,
report-commit, admin delete) answers with a 400/401/403/404/409 error,
the rooms table is exactly what it was before the request: all
validation, authentication and existence checks happen before any
mutation. -/
theorem mutating_error_responses_preserve_rooms :
    ∀ (rooms : Rooms) (isJson : Bool) (data : List (String × String))
      (now : Nat) (ah ak key rc : String),
      (isErrStatus (create_room_endpoint rooms isJson data).1.1 = true →
        (create_room_endpoint rooms isJson data).2 = rooms) ∧
      (isErrStatus (join_room_endpoint rooms isJson data).1.1 = true →
        (join_room_endpoint rooms isJson data).2 = rooms) ∧
      (isErrStatus (leave_room_endpoint rooms isJson data).1.1 = true →
        (leave_room_endpoint rooms isJson data).2 = rooms) ∧
      (isErrStatus (report_commit_endpoint rooms isJson data now).1.1 = true →
        (report_commit_endpoint rooms isJson data now).2 = rooms) ∧
      (isErrStatus (delete_room rooms ah ak key rc).1.1 = true →
        (delete_room rooms ah ak key rc).2 = rooms) := by
  intro rooms isJson data now ah ak key rc
  refine ⟨?_, ?_, ?_, ?_, fun h => (delete_room_err rooms ah ak key rc h).2⟩
  · unfold create_room_endpoint
    cases hq : requestJsonCheck ["project_name", "developer_id", "subdomain_url"]
        isJson data with
    | some resp => exact fun _ => rfl
    | none => exact fun h => (create_room_err rooms _ _ _ h).2
  · unfold join_room_endpoint
    cases hq : requestJsonCheck ["room_code", "developer_id", "subdomain_url"]
        isJson data with
    | some resp => exact fun _ => rfl
    | none => exact fun h => (join_room_err rooms _ _ _ h).2
  · unfold leave_room_endpoint
    cases hq : requestJsonCheck ["room_code", "developer_id"] isJson data with
    | some resp => exact fun _ => rfl
    | none => exact fun h => (leave_room_err rooms _ _ h).2
  · unfold report_commit_endpoint
    cases hq : requestJsonCheck
        ["room_code", "developer_id", "commit_hash", "branch", "commit_message"]
        isJson data with
    | some resp => exact fun _ => rfl
    | none => exact fun h => (report_commit_err rooms _ _ _ _ _ now h).2

/-- Witness for C10: a validation-failing create and an unauthenticated
delete both leave the rooms table unchanged. -/
theorem mutating_error_responses_preserve_rooms_witness :
    (create_room_endpoint [] true
        [("project_name", "!!!"), ("developer_id", "alice"),
         ("subdomain_url", "http://dev-a.m-act.live")]).2 = ([] : Rooms) ∧
    (delete_room [("demo", ⟨[], []⟩)] "" "" "secret" "demo").2 =
      [("demo", ⟨[], []⟩)] := by
  constructor
  · exact (mutating_error_responses_preserve_rooms [] true
      [("project_name", "!!!"), ("developer_id", "alice"),
       ("subdomain_url", "http://dev-a.m-act.live")] 0 "" "" "secret"
      "demo").1 (by decide)
  · exact (mutating_error_responses_preserve_rooms [("demo", ⟨[], []⟩)] true []
      0 "" "" "secret" "demo").2.2.2.2 (by decide)

end MACT
